import Mathlib

/-!
Verification development for the ESP32 solar-charger gateway
(`services/esp32_manager.py`, `services/data_cache.py`,
`services/rate_limiter.py`, `services/schedule_manager.py`,
`core/config.py`).

Shallow embedding conventions:
- Python strings are modelled as `List Char` (with `String` wrappers where
  convenient); machine floats carrying wall-clock seconds are modelled as
  exact rationals `ℚ` (the code only adds, subtracts and compares them);
  Python ints are `ℤ` or `ℕ` as noted at each definition.
- Fallible operations return `Option`; a Python `KeyError` is the `none`
  of the surrounding `Option`.
- `json.loads` (CPython standard library, used by `_is_json_complete` and
  `_parse_data_response`) is embedded as a recursive-descent parser over
  `List Char` producing a `Json` tree; number values are represented as
  exact decimals, object fields as an ordered association list.
-/

namespace ESP32Spec

/-- JSON values as produced by `json.loads`: null, booleans, numbers,
strings, arrays and objects (ordered field lists).  A number literal is
kept as the exact decimal `mantissa * 10 ^ exp10` its digits denote
(ints and floats collapsed into one constructor). -/
inductive Json where
  | null : Json
  | bool (b : Bool) : Json
  | num (mantissa : ℤ) (exp10 : ℤ) : Json
  | str (s : String) : Json
  | arr (elems : List Json) : Json
  | obj (fields : List (String × Json)) : Json
deriving Repr

/-- Whitespace skipped by the CPython `json` module between tokens:
space, tab, newline, carriage return. -/
def isJsonWs (c : Char) : Bool :=
  c = ' ' ∨ c = '\t' ∨ c = '\n' ∨ c = '\r'

/-- Drop leading JSON whitespace. -/
def skipWs (cs : List Char) : List Char :=
  cs.dropWhile isJsonWs

/-- Value of one hexadecimal digit, if any. -/
def hexVal (c : Char) : Option ℕ :=
  if '0' ≤ c ∧ c ≤ '9' then some (c.toNat - '0'.toNat)
  else if 'a' ≤ c ∧ c ≤ 'f' then some (c.toNat - 'a'.toNat + 10)
  else if 'A' ≤ c ∧ c ≤ 'F' then some (c.toNat - 'A'.toNat + 10)
  else none

/-- Body of a JSON string literal (after the opening quote): plain
characters, backslash escapes and 4-hex-digit unicode escapes, up to the
closing quote.  Raw control characters are rejected, as by `json.loads`
with its default strict mode.  `fuel` bounds recursion; callers pass the
input length, which suffices since every step consumes a character. -/
def parseStringBody : ℕ → List Char → List Char → Option (String × List Char)
  | 0, _, _ => none
  | _ + 1, [], _ => none
  | fuel + 1, c :: cs, acc =>
    if c = '"' then some (String.mk acc.reverse, cs)
    else if c = '\\' then
      match cs with
      | [] => none
      | e :: cs2 =>
        if e = '"' then parseStringBody fuel cs2 ('"' :: acc)
        else if e = '\\' then parseStringBody fuel cs2 ('\\' :: acc)
        else if e = '/' then parseStringBody fuel cs2 ('/' :: acc)
        else if e = 'b' then parseStringBody fuel cs2 ('\x08' :: acc)
        else if e = 'f' then parseStringBody fuel cs2 ('\x0c' :: acc)
        else if e = 'n' then parseStringBody fuel cs2 ('\n' :: acc)
        else if e = 'r' then parseStringBody fuel cs2 ('\r' :: acc)
        else if e = 't' then parseStringBody fuel cs2 ('\t' :: acc)
        else if e = 'u' then
          match cs2 with
          | h1 :: h2 :: h3 :: h4 :: cs3 =>
            match hexVal h1, hexVal h2, hexVal h3, hexVal h4 with
            | some a, some b, some c3, some d =>
              parseStringBody fuel cs3
                (Char.ofNat (((a * 16 + b) * 16 + c3) * 16 + d) :: acc)
            | _, _, _, _ => none
          | _ => none
        else none
    else if c.toNat < 32 then none
    else parseStringBody fuel cs (c :: acc)

/-- Longest leading run of decimal digits, as value and length, plus the
rest of the input. -/
def takeDigits (cs : List Char) : (ℕ × ℕ) × List Char :=
  match cs with
  | c :: rest =>
    if c.isDigit then
      let ((v, n), r) := takeDigits rest
      ((v + (c.toNat - '0'.toNat) * 10 ^ n, n + 1), r)
    else ((0, 0), cs)
  | [] => ((0, 0), [])

/-- JSON number literal, following the `json` module's NUMBER_RE:
`-?(0|[1-9][0-9]*)(\.[0-9]+)?([eE][+-]?[0-9]+)?`.  The regex matches the
longest such prefix; a malformed tail (for instance a bare dot) is simply
left unconsumed for the surrounding structure to reject.  The value is
returned as the exact decimal pair (mantissa, power of ten). -/
def parseNumber (cs : List Char) : Option ((ℤ × ℤ) × List Char) :=
  let (neg, cs1) :=
    match cs with
    | '-' :: t => (true, t)
    | _ => (false, cs)
  match cs1 with
  | c :: t =>
    if ¬ c.isDigit then none
    else
      let (ip, cs2) :=
        if c = '0' then ((0 : ℕ), t)
        else
          let ((v, _), r) := takeDigits cs1
          (v, r)
      let (frac, cs3) :=
        match cs2 with
        | '.' :: t2 =>
          let ((fv, fn), r) := takeDigits t2
          if fn = 0 then (((0 : ℕ), (0 : ℕ)), cs2) else ((fv, fn), r)
        | _ => (((0 : ℕ), (0 : ℕ)), cs2)
      let (ex, cs4) :=
        match cs3 with
        | e :: t3 =>
          if e = 'e' ∨ e = 'E' then
            let (esign, t4) :=
              match t3 with
              | '+' :: t5 => (false, t5)
              | '-' :: t5 => (true, t5)
              | _ => (false, t3)
            let ((ev, en), r) := takeDigits t4
            if en = 0 then ((0 : ℤ), cs3)
            else ((if esign then -(ev : ℤ) else (ev : ℤ)), r)
          else ((0 : ℤ), cs3)
        | [] => ((0 : ℤ), cs3)
      let mantissa : ℤ := (ip : ℤ) * 10 ^ frac.2 + (frac.1 : ℤ)
      some (((if neg then -mantissa else mantissa), ex - (frac.2 : ℤ)), cs4)
  | [] => none

mutual

/-- JSON value parser: `fuel`-bounded recursive descent mirroring the
grammar accepted by `json.loads`.  Expects its input to start at a
non-whitespace character. -/
def parseValue : ℕ → List Char → Option (Json × List Char)
  | 0, _ => none
  | fuel + 1, cs =>
    match cs with
    | [] => none
    | c :: t =>
      if c = '"' then
        match parseStringBody (t.length + 1) t [] with
        | some (s, r) => some (Json.str s, r)
        | none => none
      else if c = '{' then
        match skipWs t with
        | '}' :: r => some (Json.obj [], r)
        | cs2 => parseMembers fuel cs2 []
      else if c = '[' then
        match skipWs t with
        | ']' :: r => some (Json.arr [], r)
        | cs2 => parseItems fuel cs2 []
      else if c = 't' then
        match t with
        | 'r' :: 'u' :: 'e' :: r => some (Json.bool true, r)
        | _ => none
      else if c = 'f' then
        match t with
        | 'a' :: 'l' :: 's' :: 'e' :: r => some (Json.bool false, r)
        | _ => none
      else if c = 'n' then
        match t with
        | 'u' :: 'l' :: 'l' :: r => some (Json.null, r)
        | _ => none
      else
        match parseNumber cs with
        | some ((m, e), r) => some (Json.num m e, r)
        | none => none

/-- Members of a JSON object after the opening brace (non-empty case):
a quoted key, a colon, a value, then a comma for the next member or the
closing brace. -/
def parseMembers : ℕ → List Char → List (String × Json) →
    Option (Json × List Char)
  | 0, _, _ => none
  | fuel + 1, cs, acc =>
    match cs with
    | '"' :: t =>
      match parseStringBody (t.length + 1) t [] with
      | some (key, r1) =>
        match skipWs r1 with
        | ':' :: r2 =>
          match parseValue fuel (skipWs r2) with
          | some (v, r3) =>
            match skipWs r3 with
            | ',' :: r4 => parseMembers fuel (skipWs r4) (acc ++ [(key, v)])
            | '}' :: r4 => some (Json.obj (acc ++ [(key, v)]), r4)
            | _ => none
          | none => none
        | _ => none
      | none => none
    | _ => none

/-- Items of a JSON array after the opening bracket (non-empty case). -/
def parseItems : ℕ → List Char → List Json → Option (Json × List Char)
  | 0, _, _ => none
  | fuel + 1, cs, acc =>
    match parseValue fuel cs with
    | some (v, r1) =>
      match skipWs r1 with
      | ',' :: r2 => parseItems fuel (skipWs r2) (acc ++ [v])
      | ']' :: r2 => some (Json.arr (acc ++ [v]), r2)
      | _ => none
    | none => none

end

/-- Embedding of `json.loads` on character lists: parse one value with
surrounding whitespace allowed, requiring the whole input to be consumed;
any parse error (Python `JSONDecodeError`) is `none`. -/
def json_loads_list (cs : List Char) : Option Json :=
  let cs1 := skipWs cs
  match parseValue (cs1.length + 1) cs1 with
  | some (v, rest) => if skipWs rest = [] then some v else none
  | none => none

/-- Embedding of `json.loads` on strings. -/
def json_loads (s : String) : Option Json :=
  json_loads_list s.toList

/-! Framer layer: `ESP32Manager._is_json_complete`,
`ESP32Manager._parse_data_response` and the chunked read loop of
`ESP32Manager._read_json_chunked` (services/esp32_manager.py). -/

/-- Python `str.strip()`: remove leading and trailing whitespace. -/
def pyStrip (cs : List Char) : List Char :=
  ((cs.dropWhile Char.isWhitespace).reverse.dropWhile Char.isWhitespace).reverse

/-- Python truthiness of a `json.loads` result, used by the manager's
`if self._last_data:` and `if parsed_data:` checks: empty containers,
zero, the empty string, `False` and `None` are falsy. -/
def pyTruthy : Json → Bool
  | Json.null => false
  | Json.bool b => b
  | Json.num m _ => m ≠ 0
  | Json.str s => s ≠ ""
  | Json.arr xs => ¬ xs.isEmpty
  | Json.obj fs => ¬ fs.isEmpty

/-- Truthiness of an `Optional` value holding a JSON tree. -/
def pyTruthyOpt : Option Json → Bool
  | none => false
  | some j => pyTruthy j

/-- Suffix of the buffer from the first opening brace
(`data[data.find(chr(123)):]`), or `none` when `data.find` returns -1. -/
def jsonPart (cs : List Char) : Option (List Char) :=
  if cs.any (· = '{') then some (cs.dropWhile (· ≠ '{')) else none

/-- Telemetry keys recognised by `_is_json_complete`
(`required_fields` in the source). -/
def required_fields : List String :=
  ["batteryVoltage", "batteryCapacity", "temperatureC"]

/-- Whether a parsed JSON value is an object containing the given key
(Python `field in parsed` on a dict). -/
def hasKey (v : Json) (field : String) : Bool :=
  match v with
  | Json.obj fs => fs.any (·.1 = field)
  | _ => false

/-- Number of recognised telemetry keys present in a parsed value. -/
def recognized_count (v : Json) : ℕ :=
  required_fields.countP (fun f => hasKey v f)

/-- The source's `any(field in parsed for field in required_fields)`. -/
def has_required_fields (v : Json) : Bool :=
  required_fields.any (fun f => hasKey v f)

/-- Embedding of `ESP32Manager._is_json_complete`: the accumulated buffer
is a complete telemetry frame when its stripped length is at least 50,
it contains an opening brace, the brace-delimited suffix has equal and
non-zero open/close brace counts, parses as JSON, and the parsed value
has at least one recognised telemetry key. -/
def is_json_complete (data : List Char) : Bool :=
  if (pyStrip data).length < 50 then false
  else
    match jsonPart data with
    | none => false
    | some jp =>
      if jp.count '{' ≠ jp.count '}' ∨ jp.count '{' = 0 then false
      else
        match json_loads_list jp with
        | some v => has_required_fields v
        | none => false

/-- String-level wrapper for `is_json_complete`. -/
def is_json_complete_str (s : String) : Bool :=
  is_json_complete s.toList

/-- Embedding of `ESP32Manager._parse_data_response`: strip a leading
`DATA:` tag and parse the JSON payload, or parse from the first opening
brace; parse errors and brace-free responses give `None`. -/
def parse_data_response (cs : List Char) : Option Json :=
  if cs.take 5 = "DATA:".toList then json_loads_list (cs.drop 5)
  else if cs.any (· = '{') then json_loads_list (cs.dropWhile (· ≠ '{'))
  else none

/-- Accumulation loop of `ESP32Manager._read_json_chunked`: append each
delivered chunk to the buffer and return the buffer at the first point
`_is_json_complete` accepts it; when the deliveries are exhausted the
loop times out and returns the (truthy) accumulated buffer, or `None`
when nothing was received. -/
def accumulateFrames : List Char → List (List Char) → Option (List Char)
  | acc, [] => if acc = [] then none else some acc
  | acc, ch :: rest =>
    let acc2 := acc ++ ch
    if ch ≠ [] ∧ is_json_complete acc2 then some acc2
    else accumulateFrames acc2 rest

/-- Embedding of `ESP32Manager._read_json_chunked` fed a fixed ordered
sequence of byte deliveries. -/
def read_json_chunked (chunks : List (List Char)) : Option (List Char) :=
  accumulateFrames [] chunks

/-! Command dispatcher: the cache-bearing state of `ESP32Manager` and the
pure content of `get_data`, `set_parameter`, `toggle_load` and
`cancel_temporary_off`.  The serial channel and the lock are external
effects, so each operation takes the lock-acquisition outcome and the
device's (already reassembled) response as parameters; wall-clock time is
the explicit `now` argument (`current_time = time.time()` in the source). -/

/-- Telemetry-cache state of `ESP32Manager`. -/
structure ESP32Manager where
  last_data : Option Json
  last_data_time : ℚ
  last_set_command_time : ℚ
  communication_errors : ℕ
  last_successful_communication : Option ℚ
deriving Repr

/-- The manager's `_cache_duration` (20 seconds, frontend polling cache). -/
def cache_duration : ℚ := 20

/-- The manager's `_min_set_command_interval` (1 second). -/
def min_set_command_interval : ℚ := 1

/-- Embedding of `ESP32Manager.get_data`.  Branches in source order:
a fresh-cache hit returns the cached data; under GET-concurrency pressure
(`tooManyGets`) a cache younger than 30 s is returned; on failure to
acquire the channel lock within 1.5 s the cached data is returned (the
sub-30-s and over-30-s branches both fall back to `_last_data`); with the
lock held, a complete, parseable response refreshes the cache and resets
the error counter, and anything else falls back to the cached data. -/
def ESP32Manager.get_data (st : ESP32Manager) (now : ℚ) (tooManyGets : Bool)
    (lockAcquired : Bool) (response : Option (List Char)) :
    Option Json × ESP32Manager :=
  if pyTruthyOpt st.last_data ∧ now - st.last_data_time < cache_duration then
    (st.last_data, st)
  else if tooManyGets ∧ pyTruthyOpt st.last_data ∧
      now - st.last_data_time < 30 then
    (st.last_data, st)
  else if ¬ lockAcquired then
    if pyTruthyOpt st.last_data ∧ now - st.last_data_time < 30 then
      (st.last_data, st)
    else
      ((if pyTruthyOpt st.last_data then st.last_data else none), st)
  else
    match response with
    | some r =>
      if is_json_complete r then
        match parse_data_response r with
        | some d =>
          if pyTruthy d then
            (some d,
              { st with
                last_data := some d
                last_data_time := now
                communication_errors := 0
                last_successful_communication := some now })
          else
            ((if pyTruthyOpt st.last_data then st.last_data else none), st)
        | none =>
          ((if pyTruthyOpt st.last_data then st.last_data else none), st)
      else
        ((if pyTruthyOpt st.last_data then st.last_data else none), st)
    | none =>
      ((if pyTruthyOpt st.last_data then st.last_data else none), st)

/-- Result dictionary of `ESP32Manager.set_parameter`, reduced to the
fields the claims inspect. -/
structure SetParamResult where
  success : Bool
  esp32_response : Option (List Char)
deriving Repr

/-- Embedding of `ESP32Manager.set_parameter`: failure to acquire the
8-second lock reports an error; otherwise `_last_set_command_time` is
stamped and the plain-text device response decides success
(accepted only with an `OK:` prefix).  Note that no branch touches
`last_data` or `last_data_time`. -/
def ESP32Manager.set_parameter (st : ESP32Manager) (now : ℚ)
    (lockAcquired : Bool) (response : Option (List Char)) :
    SetParamResult × ESP32Manager :=
  if ¬ lockAcquired then ({ success := false, esp32_response := none }, st)
  else
    let st1 := { st with last_set_command_time := now }
    match response with
    | some r =>
      if r.take 3 = "OK:".toList then
        ({ success := true, esp32_response := some r }, st1)
      else
        ({ success := false, esp32_response := some r }, st1)
    | none => ({ success := false, esp32_response := none }, st1)

/-- Embedding of `ESP32Manager.toggle_load`: seconds outside 1..43200 are
rejected; failure to acquire the 3-second lock fails; an `OK:` response
succeeds and invalidates the telemetry cache (`self._last_data = None`). -/
def ESP32Manager.toggle_load (st : ESP32Manager) (total_seconds : ℤ)
    (lockAcquired : Bool) (response : Option (List Char)) :
    Bool × ESP32Manager :=
  if total_seconds < 1 ∨ 43200 < total_seconds then (false, st)
  else if ¬ lockAcquired then (false, st)
  else
    match response with
    | some r =>
      if r.take 3 = "OK:".toList then (true, { st with last_data := none })
      else (false, st)
    | none => (false, st)

/-- Embedding of `ESP32Manager.cancel_temporary_off`: an `OK:` response
succeeds and invalidates the telemetry cache. -/
def ESP32Manager.cancel_temporary_off (st : ESP32Manager)
    (lockAcquired : Bool) (response : Option (List Char)) :
    Bool × ESP32Manager :=
  if ¬ lockAcquired then (false, st)
  else
    match response with
    | some r =>
      if r.take 3 = "OK:".toList then (true, { st with last_data := none })
      else (false, st)
    | none => (false, st)

/-! Python dictionaries, modelled as insertion-ordered association
lists: `d[k]` is `dlookup`, `d[k] = v` is `dinsert` (update in place for
an existing key, append otherwise), `d.pop(k, None)` is `dpop`. -/

/-- Dictionary lookup: the value of the first pair with the given key. -/
def dlookup {κ : Type} {β : Type} [DecidableEq κ] :
    List (κ × β) → κ → Option β
  | [], _ => none
  | (a, b) :: t, k => if a = k then some b else dlookup t k

/-- Key membership (`k in d`). -/
def dmem {κ : Type} {β : Type} [DecidableEq κ]
    (l : List (κ × β)) (k : κ) : Bool :=
  l.any (fun p => p.1 = k)

/-- Dictionary store: replace the value of an existing key in place, or
append a new entry (Python dicts keep the original position of an
updated key and append new keys in insertion order). -/
def dinsert {κ : Type} {β : Type} [DecidableEq κ] :
    List (κ × β) → κ → β → List (κ × β)
  | [], k, v => [(k, v)]
  | (a, b) :: t, k, v =>
    if a = k then (k, v) :: t else (a, b) :: dinsert t k v

/-- Dictionary removal (`d.pop(k, None)`). -/
def dpop {κ : Type} {β : Type} [DecidableEq κ]
    (l : List (κ × β)) (k : κ) : List (κ × β) :=
  l.filter (fun p => ¬ p.1 = k)

/-- Keys of a dictionary, in insertion order. -/
def dkeys {κ : Type} {β : Type} (l : List (κ × β)) : List κ :=
  l.map Prod.fst

/-! Freshness cache: `services/data_cache.py` (`DataCache`), a TTL
key-value store over two parallel dictionaries. -/

/-- The configured `settings.CACHE_TTL` (core/config.py): 2 seconds. -/
def CACHE_TTL : ℚ := 2

/-- State of `DataCache`: the value dictionary `_cache` and the parallel
timestamp dictionary `_timestamps`. -/
structure DataCache (α : Type) where
  cache : List (String × α)
  timestamps : List (String × ℚ)

/-- A freshly constructed `DataCache`. -/
def DataCache.empty (α : Type) : DataCache α := ⟨[], []⟩

/-- Embedding of `DataCache.invalidate`: drop the key from both
dictionaries. -/
def DataCache.invalidate {α : Type} (dc : DataCache α) (k : String) :
    DataCache α :=
  ⟨dpop dc.cache k, dpop dc.timestamps k⟩

/-- Embedding of `DataCache.get`.  The source guards only on
`key not in self._cache` and then reads `self._timestamps[key]`
unguarded; that read is a `KeyError` (outer `none`) whenever the key is
missing from `_timestamps` while present in `_cache`.  A surviving entry
older than the TTL is invalidated and reported as a miss. -/
def DataCache.get {α : Type} (dc : DataCache α) (k : String) (now : ℚ) :
    Option (Option α × DataCache α) :=
  match dlookup dc.cache k with
  | none => some (none, dc)
  | some v =>
    match dlookup dc.timestamps k with
    | none => none
    | some ts =>
      if now - ts > CACHE_TTL then some (none, dc.invalidate k)
      else some (some v, dc)

/-- Embedding of `DataCache.set`: store the value and stamp the write
time. -/
def DataCache.set {α : Type} (dc : DataCache α) (k : String) (v : α)
    (now : ℚ) : DataCache α :=
  ⟨dinsert dc.cache k v, dinsert dc.timestamps k now⟩

/-- Embedding of `DataCache.clear`: empty both dictionaries. -/
def DataCache.clear {α : Type} (_ : DataCache α) : DataCache α :=
  ⟨[], []⟩

/-- One `DataCache` call, with the wall-clock time observed by the
time-dependent operations. -/
inductive CacheOp (α : Type) where
  | get (k : String) (now : ℚ)
  | set (k : String) (v : α) (now : ℚ)
  | invalidate (k : String)
  | clear

/-- Run a sequence of `DataCache` calls, propagating a `KeyError` from
`get` as an overall `none`. -/
def DataCache.run {α : Type} (dc : DataCache α) :
    List (CacheOp α) → Option (DataCache α)
  | [] => some dc
  | op :: rest =>
    match op with
    | CacheOp.get k now =>
      match dc.get k now with
      | some (_, dc2) => dc2.run rest
      | none => none
    | CacheOp.set k v now => (dc.set k v now).run rest
    | CacheOp.invalidate k => (dc.invalidate k).run rest
    | CacheOp.clear => dc.clear.run rest

/-! Rate limiter: `services/rate_limiter.py` (`RateLimiter`) with the
per-class limits computed in `core/config.py` (`Settings`). -/

/-- Operation classes of `models/rate_limiting.py` (`OperationType`). -/
inductive OperationType where
  | READ_DATA
  | SET_CONFIG
  | EXECUTE_ACTION
  | HEALTH_CHECK
deriving DecidableEq, Repr

/-- Per-class limits (`RateLimitInfo`): minimum interval between requests
and ceiling on requests inside the trailing 60-second window. -/
structure RateLimitInfo where
  min_interval_seconds : ℚ
  max_per_minute : ℕ
deriving DecidableEq, Repr

/-- The `settings.MIN_COMMAND_INTERVAL` default (0.1 s). -/
def MIN_COMMAND_INTERVAL : ℚ := 1 / 10

/-- The `settings.MAX_REQUESTS_PER_MINUTE` default (600). -/
def MAX_REQUESTS_PER_MINUTE : ℕ := 600

/-- The `settings.READ_DATA_PER_MINUTE` property: the per-minute ceiling
of the telemetry-read class equals `MAX_REQUESTS_PER_MINUTE`. -/
def READ_DATA_PER_MINUTE : ℕ := MAX_REQUESTS_PER_MINUTE

/-- Default per-class limits built in `RateLimiter.__init__` from the
`Settings` properties (`READ_DATA_INTERVAL`, `CONFIG_CHANGE_*`,
`ACTION_*`, `HEALTH_CHECK_*`). -/
def defaultLimits : OperationType → RateLimitInfo
  | OperationType.READ_DATA =>
    ⟨MIN_COMMAND_INTERVAL, MAX_REQUESTS_PER_MINUTE⟩
  | OperationType.SET_CONFIG =>
    ⟨MIN_COMMAND_INTERVAL * 3, max 6 (MAX_REQUESTS_PER_MINUTE / 10)⟩
  | OperationType.EXECUTE_ACTION =>
    ⟨MIN_COMMAND_INTERVAL * 10, max 3 (MAX_REQUESTS_PER_MINUTE / 20)⟩
  | OperationType.HEALTH_CHECK =>
    ⟨max 1 (MIN_COMMAND_INTERVAL / 2), MAX_REQUESTS_PER_MINUTE⟩

/-- State of `RateLimiter`: per-class limits, the `(operation, client)`
keyed `last_request` timestamps, the bounded per-key request-history
rings, and the global counters. -/
structure RateLimiter where
  limits : OperationType → RateLimitInfo
  last_request : List ((OperationType × String) × ℚ)
  request_history : List ((OperationType × String) × List ℚ)
  total_requests : ℕ
  blocked_requests : ℕ

/-- A freshly constructed limiter with the given per-class limits. -/
def RateLimiter.init (limits : OperationType → RateLimitInfo) :
    RateLimiter :=
  ⟨limits, [], [], 0, 0⟩

/-- Append to a `deque(maxlen=100)` (rate_limiter.py line 52): when the
ring already holds 100 entries the oldest is dropped. -/
def bappend (l : List ℚ) (x : ℚ) : List ℚ :=
  if 100 ≤ l.length then l.drop 1 ++ [x] else l ++ [x]

/-- Outcome of `RateLimiter.check_rate_limit`: allowed, denied for the
minimum-interval constraint (HTTP 429 with `limit_type` of
`minimum_interval`, carrying the remaining wait in seconds), or denied
for the per-minute window ceiling (`limit_type` of
`requests_per_minute`, carrying the seconds until the window resets).
The source rounds the carried times to one decimal for the response
body; the model keeps them exact. -/
inductive RLResult where
  | allowed
  | deniedInterval (wait_seconds : ℚ)
  | deniedWindow (reset_in_seconds : ℚ)
deriving DecidableEq, Repr

/-- Embedding of `RateLimiter.check_rate_limit`.  In source order: bump
`total_requests`; deny when the previous request of the same
`(operation, client)` key is closer than the class minimum interval
(without touching the history); otherwise prune the key's ring of
entries older than 60 s and deny when the pruned ring has reached the
class ceiling; otherwise record the request in `last_request` and the
ring and allow. -/
def RateLimiter.check_rate_limit (rl : RateLimiter) (now : ℚ)
    (op : OperationType) (client : String) : RLResult × RateLimiter :=
  let key := (op, client)
  let lim := rl.limits op
  let rl1 := { rl with total_requests := rl.total_requests + 1 }
  let denyInterval : Option (RLResult × RateLimiter) :=
    match dlookup rl1.last_request key with
    | some last =>
      if now - last < lim.min_interval_seconds then
        some (RLResult.deniedInterval (lim.min_interval_seconds - (now - last)),
          { rl1 with blocked_requests := rl1.blocked_requests + 1 })
      else none
    | none => none
  match denyInterval with
  | some out => out
  | none =>
    let history := (dlookup rl1.request_history key).getD []
    let history := history.dropWhile (fun t => t ≤ now - 60)
    if lim.max_per_minute ≤ history.length then
      let oldest := history.headD now
      (RLResult.deniedWindow (60 - (now - oldest)),
        { rl1 with
          blocked_requests := rl1.blocked_requests + 1
          request_history := dinsert rl1.request_history key history })
    else
      (RLResult.allowed,
        { rl1 with
          last_request := dinsert rl1.last_request key now
          request_history :=
            dinsert rl1.request_history key (bappend history now) })

/-- Run a sequence of checks for one `(operation, client)` key at the
given times, collecting the outcomes. -/
def RateLimiter.runChecks (rl : RateLimiter) (op : OperationType)
    (client : String) : List ℚ → List RLResult × RateLimiter
  | [] => ([], rl)
  | t :: rest =>
    let (r, rl2) := rl.check_rate_limit t op client
    let (rs, rl3) := rl2.runChecks op client rest
    (r :: rs, rl3)

/-- Run a sequence of checks for arbitrary keys, keeping only the final
state. -/
def RateLimiter.applyChecks (rl : RateLimiter) :
    List (ℚ × OperationType × String) → RateLimiter
  | [] => rl
  | (t, op, client) :: rest =>
    ((rl.check_rate_limit t op client).2).applyChecks rest

/-! Schedule engine: `services/schedule_manager.py` (`ScheduleManager`).
Naive local wall-clock time is modelled as non-negative seconds since an
epoch that falls on a local midnight, so that the day of an instant `t`
is `t / 86400` and its time-of-day is `t % 86400`. -/

/-- Decimal value of a digit string. -/
def digitsToNat (cs : List Char) : ℕ :=
  cs.foldl (fun acc c => acc * 10 + (c.toNat - '0'.toNat)) 0

/-- Split a character list at every colon (the semantics of Python
`s.split` with a one-character separator). -/
def splitCols : List Char → List (List Char)
  | [] => [[]]
  | c :: rest =>
    if c = ':' then [] :: splitCols rest
    else
      match splitCols rest with
      | p :: ps => (c :: p) :: ps
      | [] => [[c]]

/-- Embedding of CPython `datetime.strptime(s, time-format)` for the
hour-colon-minute format used by the schedule: the whole string must be
one or two digits valued 0-23, a colon, and one or two digits valued
0-59 (the `%H` regex accepts `2[0-3]|[0-1][0-9]|[0-9]` and `%M` accepts
`[0-5][0-9]|[0-9]`); anything else raises `ValueError` (`none`). -/
def strptime_HM (s : String) : Option (ℕ × ℕ) :=
  match splitCols s.toList with
  | [hc, mc] =>
    if 1 ≤ hc.length ∧ hc.length ≤ 2 ∧ hc.all Char.isDigit ∧
        1 ≤ mc.length ∧ mc.length ≤ 2 ∧ mc.all Char.isDigit ∧
        digitsToNat hc ≤ 23 ∧ digitsToNat mc ≤ 59 then
      some (digitsToNat hc, digitsToNat mc)
    else none
  | _ => none

/-- The local midnight starting the day after the instant `now`:
`(now + timedelta(days=1)).replace(hour=0, minute=0, second=0,
microsecond=0)`. -/
def startOfNextDay (now : ℕ) : ℕ :=
  (now / 86400 + 1) * 86400

/-- State of `ScheduleManager`: the configured daily window, the manual
override and the execution flags. -/
structure ScheduleManager where
  enabled : Bool
  start_time : String
  duration_seconds : ℤ
  manual_override_active : Bool
  manual_override_until : Option ℕ
  currently_executing_schedule : Bool
  running : Bool
deriving Repr, DecidableEq

/-- A freshly constructed `ScheduleManager` (schedule disabled, default
window 00:00 for 21600 s, no override, loop not yet started). -/
def ScheduleManager.init : ScheduleManager :=
  ⟨false, "00:00", 21600, false, none, false, false⟩

/-- Embedding of `ScheduleManager.configure_schedule`: `strptime`
validates the start time and the duration must lie in 1..28800; any
validation failure returns `False` before the stored configuration is
touched. -/
def ScheduleManager.configure_schedule (st : ScheduleManager)
    (enabled : Bool) (start_time : String) (duration_seconds : ℤ) :
    Bool × ScheduleManager :=
  match strptime_HM start_time with
  | none => (false, st)
  | some _ =>
    if duration_seconds < 1 ∨ 28800 < duration_seconds then (false, st)
    else
      (true,
        { st with
          enabled := enabled
          start_time := start_time
          duration_seconds := duration_seconds })

/-- Embedding of `ScheduleManager.set_manual_override`: the override
lasts until the later of `now + duration` and the start of the next
local day. -/
def ScheduleManager.set_manual_override (st : ScheduleManager) (now : ℕ)
    (duration_seconds : ℕ) : Bool × ScheduleManager :=
  let override_until := now + duration_seconds
  let next_day := startOfNextDay now
  let final_override_until := max override_until next_day
  (true,
    { st with
      manual_override_active := true
      manual_override_until := some final_override_until })

/-- Embedding of `ScheduleManager.clear_manual_override`. -/
def ScheduleManager.clear_manual_override (st : ScheduleManager) :
    Bool × ScheduleManager :=
  if st.manual_override_active then
    (true,
      { st with
        manual_override_active := false
        manual_override_until := none })
  else (false, st)

/-- Embedding of `ScheduleManager._is_schedule_active_now`: enabled, not
overridden, and the wall clock lies inside the closed interval from
today's configured start to start plus duration (an unparseable stored
start time is caught and reported inactive). -/
def ScheduleManager.is_schedule_active_now (st : ScheduleManager)
    (now : ℕ) : Bool :=
  if ¬ st.enabled then false
  else if st.manual_override_active then false
  else
    match strptime_HM st.start_time with
    | none => false
    | some (h, m) =>
      let start_today : ℤ := ((now / 86400) * 86400 + h * 3600 + m * 60 : ℕ)
      let end_today : ℤ := start_today + st.duration_seconds
      start_today ≤ (now : ℤ) ∧ (now : ℤ) ≤ end_today

/-- Embedding of the override-expiry check and window evaluation of
`ScheduleManager.get_status`: an override whose deadline has passed is
cleared, and `currently_active` is evaluated on the updated state.
Returns the updated state and the reported `currently_active`. -/
def ScheduleManager.get_status (st : ScheduleManager) (now : ℕ) :
    ScheduleManager × Bool :=
  let expired : Bool :=
    match st.manual_override_until with
    | some u => u ≤ now
    | none => false
  let st2 :=
    if st.manual_override_active ∧ expired then
      { st with manual_override_active := false, manual_override_until := none }
    else st
  (st2, st2.is_schedule_active_now now)

/-- Embedding of one iteration of
`ScheduleManager._daily_schedule_loop`: skip when stopped, disabled or —
without any expiry check — whenever the manual-override flag is set;
otherwise enter the window by issuing the toggle command
(`_execute_schedule`, which marks execution only when the command is
acknowledged) or leave it by clearing the execution flag
(`_stop_schedule`, which sends nothing).  Returns the updated state and
whether a toggle command was issued to the device. -/
def ScheduleManager.tick (st : ScheduleManager) (now : ℕ)
    (toggleOk : Bool) : ScheduleManager × Bool :=
  if ¬ st.running then (st, false)
  else if ¬ st.enabled then (st, false)
  else if st.manual_override_active then (st, false)
  else if st.is_schedule_active_now now then
    if ¬ st.currently_executing_schedule then
      ((if toggleOk then { st with currently_executing_schedule := true }
        else st), true)
    else (st, false)
  else
    if st.currently_executing_schedule then
      ({ st with currently_executing_schedule := false }, false)
    else (st, false)

/-! Concrete fixtures used by the claim theorems below. -/

/-- A plain-text acknowledgement as the device sends for write
commands. -/
def okResponse : List Char := "OK:parameter updated".toList

/-- A (truthy) parsed telemetry snapshot. -/
def snapshotObj : Json :=
  Json.obj [("batteryVoltage", Json.num 13 0)]

/-- A manager whose telemetry cache holds `snapshotObj`, captured at
time 0. -/
def mgrCached : ESP32Manager :=
  ⟨some snapshotObj, 0, 0, 0, none⟩

/-- A limiter in which every class is configured with a 1-second minimum
interval and a ceiling of 3 requests per minute. -/
def limiterOneThree : RateLimiter :=
  RateLimiter.init (fun _ => ⟨1, 3⟩)

/-- A complete telemetry frame as sent by the device (67 bytes,
recognised fields present). -/
def frameP : List Char :=
  ("DATA:\x7b\"batteryVoltage\":12.5,\"batteryCapacity\":99," ++
    "\"temperatureC\":25\x7d").toList

/-- The same frame followed by one stray byte. -/
def framePX : List Char := frameP ++ ['X']

/-- The frame split into 16-byte deliveries (16+16+16+16+3). -/
def frameChunks16 : List (List Char) :=
  [frameP.take 16, (frameP.drop 16).take 16, (frameP.drop 32).take 16,
    (frameP.drop 48).take 16, frameP.drop 64]

/-- A 55-character syntactically well-formed JSON body containing none
of the recognised telemetry keys. -/
def plainJson : List Char :=
  "\x7b\"alpha\":\"0123456789012345678901234567890123456789012\"\x7d".toList

/-- The parse of `plainJson`. -/
def plainJsonVal : Json :=
  Json.obj [("alpha", Json.str "0123456789012345678901234567890123456789012")]

/-- A schedule manager with the default window configured and enabled,
its loop running, and a manual override that expired at t = 1000. -/
def schedExpiredOverride : ScheduleManager :=
  ⟨true, "00:00", 21600, true, some 1000, false, true⟩

/-- Bound maintained by the `deque(maxlen=100)` request-history rings:
no ring ever holds more than 100 timestamps. -/
def HistBound (rl : RateLimiter) : Prop :=
  ∀ key : OperationType × String,
    ((dlookup rl.request_history key).getD []).length ≤ 100

/-- The `DataCache` structural invariant: the value dictionary and the
timestamp dictionary always hold exactly the same keys, in the same
insertion order. -/
def CacheInv {α : Type} (dc : DataCache α) : Prop :=
  dkeys dc.cache = dkeys dc.timestamps

/-- Claim C1, counterexample.  The claim states that every successful
`set_parameter` invalidates the telemetry cache so that an immediately
following `get_data` never returns the pre-write cached snapshot.  At
this concrete input a `set_parameter` acknowledged with `OK:` succeeds,
yet a `get_data` one second later returns exactly the pre-write cached
snapshot: `set_parameter` has no branch touching `_last_data`. -/
theorem claim_C1_counterexample :
    (mgrCached.set_parameter 5 true (some okResponse)).1.success = true ∧
    ((mgrCached.set_parameter 5 true (some okResponse)).2.get_data 6 false
        true none).1 = some snapshotObj ∧
    mgrCached.last_data = some snapshotObj := by
  refine ⟨rfl, ?_, rfl⟩
  norm_num [ESP32Manager.set_parameter, ESP32Manager.get_data, mgrCached,
    pyTruthyOpt, pyTruthy, snapshotObj, okResponse, cache_duration]

/-- Claim C1, amended: a successful `set_parameter` leaves the telemetry
cache (`_last_data`, `_last_data_time`) completely untouched, so a
`get_data` issued immediately afterwards (within the 20-second cache
duration) returns the pre-write cached snapshot without contacting the
device; cache invalidation on write happens only in `toggle_load` and
`cancel_temporary_off`. -/
theorem claim_C1_amended :
    (∀ (st : ESP32Manager) (now : ℚ) (lockAcquired : Bool)
        (response : Option (List Char)),
      (st.set_parameter now lockAcquired response).2.last_data =
          st.last_data ∧
      (st.set_parameter now lockAcquired response).2.last_data_time =
          st.last_data_time) ∧
    ((mgrCached.set_parameter 5 true (some okResponse)).1.success = true ∧
      ((mgrCached.set_parameter 5 true (some okResponse)).2.get_data 6 false
          true none).1 = mgrCached.last_data) ∧
    (mgrCached.toggle_load 60 true (some okResponse)).2.last_data = none ∧
    (mgrCached.cancel_temporary_off true (some okResponse)).2.last_data =
        none := by
  refine ⟨?_, ⟨rfl, ?_⟩, rfl, rfl⟩
  · intro st now la resp
    cases la <;> cases resp <;>
      simp only [ESP32Manager.set_parameter] <;>
      split <;> (try split) <;> simp_all
  · norm_num [ESP32Manager.set_parameter, ESP32Manager.get_data, mgrCached,
      pyTruthyOpt, pyTruthy, snapshotObj, okResponse, cache_duration]

/-- Claim C2: with a class configured to a 1-second minimum interval and
a ceiling of 3 per minute, the limiter applies the minimum-interval
constraint first and the window ceiling second.  Four checks at
t = 0, 0.1, 0.2, 0.3 allow only the first and deny the rest with the
minimum-interval reason carrying the remaining wait (0.9 s, 0.8 s,
0.7 s); five checks spaced 1.1 s apart allow the first three and deny
the fourth and fifth with the window-ceiling reason. -/
theorem claim_C2 :
    (limiterOneThree.runChecks OperationType.EXECUTE_ACTION "caller"
        [0, 1 / 10, 2 / 10, 3 / 10]).1 =
      [RLResult.allowed, RLResult.deniedInterval (9 / 10),
        RLResult.deniedInterval (8 / 10), RLResult.deniedInterval (7 / 10)] ∧
    (limiterOneThree.runChecks OperationType.EXECUTE_ACTION "caller"
        [0, 11 / 10, 22 / 10, 33 / 10, 44 / 10]).1 =
      [RLResult.allowed, RLResult.allowed, RLResult.allowed,
        RLResult.deniedWindow (567 / 10), RLResult.deniedWindow (556 / 10)] := by
  constructor <;>
    norm_num [RateLimiter.runChecks, RateLimiter.check_rate_limit,
      limiterOneThree, RateLimiter.init, dlookup, dinsert, bappend,
      List.find?, List.dropWhile]

/-- Claim C4, counterexample.  The claim states that on the busy-channel
path a cached snapshot older than the 30-second grace TTL is never
returned.  Here the cached snapshot is 100 seconds old, the lock is not
acquired, and `get_data` still returns it: the source's fallback line
returns `_last_data` whenever it is truthy, whatever its age. -/
theorem claim_C4_counterexample :
    (100 : ℚ) - mgrCached.last_data_time > 30 ∧
    (mgrCached.get_data 100 false false none).1 = some snapshotObj := by
  constructor
  · norm_num [mgrCached]
  · norm_num [ESP32Manager.get_data, mgrCached, pyTruthyOpt, pyTruthy,
      snapshotObj, cache_duration]

/-- Claim C4, amended: when `get_data` fails to acquire the channel lock
it always returns the cached snapshot when a truthy one exists —
whatever its age — and returns `None` only when the cache is empty; the
30-second grace bound on this path only selects between the two
identical fallback returns (it affects the log message, not the
result).  The state is left unchanged. -/
theorem claim_C4_amended :
    ∀ (st : ESP32Manager) (now : ℚ) (tooManyGets : Bool)
      (response : Option (List Char)),
      st.get_data now tooManyGets false response =
        ((if pyTruthyOpt st.last_data then st.last_data else none), st) := by
  intro st now tm resp
  simp only [ESP32Manager.get_data]
  split_ifs with h1 h2 h3 h4 <;> simp_all

/-- Claim C5: a manual override issued at time `now` for `d` seconds
sets `manual_override_until` to exactly
`max (now + d) (start of the next local day)`; in particular an override
of 30 minutes issued at 23:50 (t = 85800 of day 0) yields 87600
(= 00:20 of the next day), which is at or beyond the next midnight
86400. -/
theorem claim_C5 :
    (∀ (st : ScheduleManager) (now duration_seconds : ℕ),
      st.set_manual_override now duration_seconds =
        (true,
          { st with
            manual_override_active := true
            manual_override_until :=
              some (max (now + duration_seconds) (startOfNextDay now)) })) ∧
    (ScheduleManager.init.set_manual_override 85800 1800).2.manual_override_until
        = some 87600 ∧
    startOfNextDay 85800 = 86400 ∧ 86400 ≤ 87600 :=
  ⟨fun _ _ _ => rfl, rfl, rfl, by norm_num⟩

/-- Claim C6, counterexample.  The claim states that once
`now >= manual_override_until` the next evaluation of either kind — a
status query or a poll tick — clears the override.  Here the override
expired at t = 1000 and a poll tick at t = 5000 (inside the configured
window) neither clears the override flag nor issues the window's toggle
command: the loop skips on `manual_override_active` without any expiry
check, so only a status query clears it. -/
theorem claim_C6_counterexample :
    schedExpiredOverride.manual_override_until = some 1000 ∧
    (1000 : ℕ) ≤ 5000 ∧
    (schedExpiredOverride.tick 5000 true).1.manual_override_active = true ∧
    (schedExpiredOverride.tick 5000 true).2 = false ∧
    (schedExpiredOverride.get_status 5000).1.manual_override_active =
        false := by
  refine ⟨rfl, by norm_num, rfl, rfl, rfl⟩

/-- Claim C6, amended: an expired manual override
(`now >= manual_override_until`) is cleared lazily by the next status
query, which transitions the state out of Overridden; a poll tick of the
background loop, however, performs no expiry check — it leaves the state
entirely unchanged and issues no command — so an expired override keeps
suppressing the schedule until a status query (or an explicit clear)
runs. -/
theorem claim_C6_amended :
    ∀ (st : ScheduleManager) (now u : ℕ) (toggleOk : Bool),
      st.manual_override_active = true →
      st.manual_override_until = some u →
      u ≤ now →
      (st.get_status now).1.manual_override_active = false ∧
      (st.tick now toggleOk).1 = st ∧
      (st.tick now toggleOk).2 = false := by
  intro st now u toggleOk h1 h2 h3
  refine ⟨?_, ?_, ?_⟩
  · simp [ScheduleManager.get_status, h1, h2, h3]
  · simp [ScheduleManager.tick, h1]
  · simp [ScheduleManager.tick, h1]

/-- Claim C6, witness for the amended theorem at a concrete expired
override. -/
theorem claim_C6_amended_witness :
    (schedExpiredOverride.get_status 5000).1.manual_override_active = false ∧
    (schedExpiredOverride.tick 5000 true).1 = schedExpiredOverride ∧
    (schedExpiredOverride.tick 5000 true).2 = false :=
  claim_C6_amended schedExpiredOverride 5000 1000 true rfl rfl (by norm_num)

/-- Claim C7: `configure_schedule` returns Invalid (`False`) exactly
when the start time is not a well-formed time-of-day accepted by
`strptime` with the hour-minute format, or the duration is non-positive,
or the duration exceeds the fixed 8-hour ceiling of 28800 seconds; on
every Invalid return the stored configuration is completely unchanged,
and on Ok the three configuration fields are replaced. -/
theorem claim_C7 :
    ∀ (st : ScheduleManager) (enabled : Bool) (start_time : String)
      (duration_seconds : ℤ),
      (((st.configure_schedule enabled start_time duration_seconds).1 = false)
          ↔ (strptime_HM start_time = none ∨ duration_seconds ≤ 0 ∨
              28800 < duration_seconds)) ∧
      ((st.configure_schedule enabled start_time duration_seconds).1 = false →
        (st.configure_schedule enabled start_time duration_seconds).2 = st) ∧
      ((st.configure_schedule enabled start_time duration_seconds).1 = true →
        (st.configure_schedule enabled start_time duration_seconds).2 =
          { st with
            enabled := enabled
            start_time := start_time
            duration_seconds := duration_seconds }) := by
  intro st e s d
  cases h : strptime_HM s with
  | none => simp [ScheduleManager.configure_schedule, h]
  | some hm =>
    simp only [ScheduleManager.configure_schedule, h]
    split_ifs with hd
    · exact ⟨⟨fun _ => Or.inr (by omega), fun _ => rfl⟩, fun _ => rfl,
        fun hc => by simp at hc⟩
    · refine ⟨⟨fun hc => by simp at hc, fun hor => ?_⟩,
        fun hc => by simp at hc, fun _ => rfl⟩
      rcases hor with h0 | h0 | h0
      · exact h0
      · exact absurd h0 (by omega)
      · exact absurd h0 (by omega)

/-- Claim C7, witness: a malformed start time is rejected with the
configuration untouched, and a valid call stores the new
configuration. -/
theorem claim_C7_witness :
    (ScheduleManager.init.configure_schedule true "99:99" 600).1 = false ∧
    (ScheduleManager.init.configure_schedule true "99:99" 600).2 =
        ScheduleManager.init ∧
    (ScheduleManager.init.configure_schedule true "12:30" 3600).2 =
        { ScheduleManager.init with
          enabled := true
          start_time := "12:30"
          duration_seconds := 3600 } := by
  have h1 := (claim_C7 ScheduleManager.init true "99:99" 600).1.mpr
    (Or.inl (by rfl))
  refine ⟨h1, (claim_C7 ScheduleManager.init true "99:99" 600).2.1 h1, ?_⟩
  exact (claim_C7 ScheduleManager.init true "12:30" 3600).2.2 (by rfl)

/-- Claim C3: the frame-completeness check accepts a buffer only if its
brace-delimited body parses as JSON with at least one recognised
telemetry key (the minimum-field threshold implemented by the source's
`any` over `required_fields`), and a buffer whose body is syntactically
well-formed JSON containing zero recognised keys is never accepted. -/
theorem claim_C3 :
    (∀ (data : List Char), is_json_complete data = true →
      ∃ jp v, jsonPart data = some jp ∧ json_loads_list jp = some v ∧
        1 ≤ recognized_count v) ∧
    (∀ (data jp : List Char) (v : Json), jsonPart data = some jp →
      json_loads_list jp = some v → recognized_count v = 0 →
      is_json_complete data = false) := by
  constructor
  · intro data h
    unfold is_json_complete at h
    split at h
    · exact absurd h (by simp)
    · split at h
      · exact absurd h (by simp)
      · rename_i jp hjp
        split at h
        · exact absurd h (by simp)
        · split at h
          · rename_i v hv
            refine ⟨jp, v, hjp, hv, ?_⟩
            have hpos : 0 < recognized_count v := by
              unfold recognized_count
              rw [List.countP_pos_iff]
              unfold has_required_fields at h
              rw [List.any_eq_true] at h
              obtain ⟨f, hf, hp⟩ := h
              exact ⟨f, hf, hp⟩
            omega
          · exact absurd h (by simp)
  · intro data jp v hjp hl hc
    unfold is_json_complete
    split
    · rfl
    · simp only [hjp]
      split
      · rfl
      · simp only [hl]
        unfold has_required_fields
        rw [List.any_eq_false]
        intro f hf
        unfold recognized_count at hc
        rw [List.countP_eq_zero] at hc
        exact hc f hf

/-- Claim C3, witness: a 55-character syntactically well-formed JSON
buffer with zero recognised telemetry keys is rejected by the
completeness check. -/
theorem claim_C3_witness :
    json_loads_list plainJson = some plainJsonVal ∧
    recognized_count plainJsonVal = 0 ∧
    is_json_complete plainJson = false :=
  ⟨rfl, rfl, claim_C3.2 plainJson plainJson plainJsonVal rfl rfl rfl⟩

/-- The empty buffer never passes the completeness check (its stripped
length is 0). -/
theorem is_json_complete_nil : is_json_complete [] = false := rfl

/-- Feeding chunks whose concatenation is `payload` to the
accumulate-and-check loop, starting from a partial buffer `acc`, returns
the whole payload whenever the payload passes the completeness check and
none of its proper prefixes does: no intermediate buffer can be accepted
early, and the final buffer is accepted (by the check, or returned by
the timeout fallback). -/
theorem accumulateFrames_total (payload : List Char)
    (hc : is_json_complete payload = true)
    (hpre : ∀ k, k < payload.length →
      is_json_complete (payload.take k) = false) :
    ∀ (chunks : List (List Char)) (acc : List Char),
      acc ++ chunks.flatten = payload →
      accumulateFrames acc chunks = some payload := by
  have hnil : payload ≠ [] := by
    intro h0
    rw [h0, is_json_complete_nil] at hc
    exact Bool.noConfusion hc
  intro chunks
  induction chunks with
  | nil =>
    intro acc hacc
    rw [List.flatten_nil, List.append_nil] at hacc
    subst hacc
    unfold accumulateFrames
    rw [if_neg hnil]
  | cons ch rest ih =>
    intro acc hacc
    rw [List.flatten_cons, ← List.append_assoc] at hacc
    show (if ch ≠ [] ∧ is_json_complete (acc ++ ch) = true
        then some (acc ++ ch) else accumulateFrames (acc ++ ch) rest) =
      some payload
    by_cases hg : ch ≠ [] ∧ is_json_complete (acc ++ ch) = true
    · rw [if_pos hg]
      have hlen : (acc ++ ch).length ≤ payload.length := by
        rw [← hacc]
        simp only [List.length_append]
        omega
      rcases Nat.lt_or_ge (acc ++ ch).length payload.length with hlt | hge
      · exfalso
        have htake : payload.take (acc ++ ch).length = acc ++ ch := by
          rw [← hacc, List.take_left]
        have hfalse := hpre _ hlt
        rw [htake] at hfalse
        rw [hg.2] at hfalse
        exact Bool.noConfusion hfalse
      · have hflat : rest.flatten = [] := by
          have hlen2 := congrArg List.length hacc
          rw [List.length_append] at hlen2
          have : rest.flatten.length = 0 := by omega
          exact List.length_eq_zero.mp this
        rw [hflat, List.append_nil] at hacc
        rw [hacc]
    · rw [if_neg hg]
      exact ih (acc ++ ch) hacc

/-- Claim C8, counterexample.  The claim states that any two partitions
of the same payload into delivery chunks yield the same accepted frame
and an identical parsed snapshot.  For the payload consisting of a
complete telemetry frame followed by one stray byte, byte-wise delivery
up to the frame boundary yields the bare frame (which parses), while a
single-chunk delivery accumulates the stray byte before the first check,
never passes the completeness check, and falls back to the whole buffer
(which does not parse). -/
theorem claim_C8_counterexample :
    framePX = frameP ++ ['X'] ∧
    read_json_chunked [frameP, ['X']] = some frameP ∧
    read_json_chunked [framePX] = some framePX ∧
    (parse_data_response frameP).isSome = true ∧
    (parse_data_response framePX).isSome = false ∧
    frameP ≠ framePX := by
  refine ⟨rfl, rfl, rfl, rfl, rfl, ?_⟩
  intro h
  have := congrArg List.length h
  rw [framePX, List.length_append] at this
  simp at this

/-- Claim C8, amended: the reconstruction loop returns the shortest
chunk-boundary-aligned buffer passing the completeness check, so for a
payload that passes the check while none of its proper prefixes does
(the case of an exact telemetry frame with no trailing bytes), every
partition into ordered delivery chunks — 1, 16, 32, 256 bytes or any
other — reconstructs the identical frame, namely the whole payload,
and hence an identical parsed snapshot. -/
theorem claim_C8_amended :
    ∀ (payload : List Char) (chunks : List (List Char)),
      chunks.flatten = payload →
      is_json_complete payload = true →
      (∀ k, k < payload.length →
        is_json_complete (payload.take k) = false) →
      read_json_chunked chunks = some payload := by
  intro payload chunks hjoin hc hpre
  unfold read_json_chunked
  exact accumulateFrames_total payload hc hpre chunks [] hjoin

/-- Claim C8, witness: the 67-byte telemetry frame delivered in 16-byte
chunks reconstructs to exactly the whole frame. -/
theorem claim_C8_amended_witness :
    frameChunks16.flatten = frameP ∧
    read_json_chunked frameChunks16 = some frameP := by
  refine ⟨rfl, ?_⟩
  exact claim_C8_amended frameP frameChunks16 rfl rfl (by decide)

/-- Looking a key up after a dictionary store: the stored key maps to the
new value and every other key is unaffected. -/
theorem dlookup_dinsert {κ β : Type} [DecidableEq κ] :
    ∀ (l : List (κ × β)) (k : κ) (v : β) (k2 : κ),
      dlookup (dinsert l k v) k2 = if k2 = k then some v else dlookup l k2 := by
  intro l k v
  induction l with
  | nil =>
    intro k2
    by_cases h : k2 = k
    · simp [dinsert, dlookup, h]
    · simp [dinsert, dlookup, h, Ne.symm h]
  | cons p t ih =>
    intro k2
    obtain ⟨a, b⟩ := p
    by_cases hak : a = k
    · subst hak
      by_cases h2 : k2 = a
      · simp [dinsert, dlookup, h2]
      · simp [dinsert, dlookup, h2, Ne.symm h2]
    · by_cases h2 : k2 = a
      · subst h2
        simp [dinsert, dlookup, hak, Ne.symm hak]
      · simp [dinsert, dlookup, hak, h2, Ne.symm h2, ih k2]

/-- A bounded-deque append never grows the ring beyond 100 entries. -/
theorem bappend_length_le (l : List ℚ) (x : ℚ) (h : l.length ≤ 100) :
    (bappend l x).length ≤ 100 := by
  unfold bappend
  split <;> simp [List.length_drop] <;> omega

/-- Pruning a ring only shrinks it. -/
theorem dropWhile_length_le {α : Type} (p : α → Bool) (l : List α) :
    (l.dropWhile p).length ≤ l.length :=
  (List.dropWhile_suffix p).sublist.length_le

/-- One rate-limit check preserves the 100-entry ring bound. -/
theorem check_rate_limit_histBound (rl : RateLimiter) (now : ℚ)
    (op : OperationType) (client : String) (h : HistBound rl) :
    HistBound (rl.check_rate_limit now op client).2 := by
  have hb : ((dlookup rl.request_history (op, client)).getD []).length ≤
      100 := h (op, client)
  have hp : (((dlookup rl.request_history (op, client)).getD []).dropWhile
      (fun t => t ≤ now - 60)).length ≤ 100 :=
    le_trans (dropWhile_length_le _ _) hb
  unfold RateLimiter.check_rate_limit
  cases hl : dlookup rl.last_request (op, client) with
  | some last =>
    by_cases hi : now - last < (rl.limits op).min_interval_seconds
    · simp only [hl, hi, if_pos]
      intro key
      exact h key
    · simp only [hl, hi, if_neg, ite_false]
      split
      · intro key
        by_cases hk : key = (op, client)
        · subst hk
          simpa [dlookup_dinsert] using hp
        · simpa [dlookup_dinsert, hk] using h key
      · intro key
        by_cases hk : key = (op, client)
        · subst hk
          simpa [dlookup_dinsert] using bappend_length_le _ _ hp
        · simpa [dlookup_dinsert, hk] using h key
  | none =>
    simp only [hl]
    split
    · intro key
      by_cases hk : key = (op, client)
      · subst hk
        simpa [dlookup_dinsert] using hp
      · simpa [dlookup_dinsert, hk] using h key
    · intro key
      by_cases hk : key = (op, client)
      · subst hk
        simpa [dlookup_dinsert] using bappend_length_le _ _ hp
      · simpa [dlookup_dinsert, hk] using h key

/-- A freshly constructed limiter satisfies the ring bound. -/
theorem init_histBound (limits : OperationType → RateLimitInfo) :
    HistBound (RateLimiter.init limits) := by
  intro key
  simp [RateLimiter.init, dlookup]

/-- Any sequence of checks preserves the ring bound. -/
theorem applyChecks_histBound (rl : RateLimiter)
    (seq : List (ℚ × OperationType × String)) (h : HistBound rl) :
    HistBound (rl.applyChecks seq) := by
  induction seq generalizing rl with
  | nil => exact h
  | cons c rest ih =>
    obtain ⟨t, op, client⟩ := c
    exact ih _ (check_rate_limit_histBound rl t op client h)

/-- Under the ring bound, a class whose per-minute ceiling exceeds 100
can never be denied for the window constraint. -/
theorem check_rate_limit_no_window (rl : RateLimiter) (now : ℚ)
    (op : OperationType) (client : String) (h : HistBound rl)
    (hmax : 100 < (rl.limits op).max_per_minute) :
    ∀ w, (rl.check_rate_limit now op client).1 ≠ RLResult.deniedWindow w := by
  intro w
  have hp : (((dlookup rl.request_history (op, client)).getD []).dropWhile
      (fun t => t ≤ now - 60)).length ≤ 100 :=
    le_trans (dropWhile_length_le _ _) (h (op, client))
  have hlt : ¬ ((rl.limits op).max_per_minute ≤
      (((dlookup rl.request_history (op, client)).getD []).dropWhile
        (fun t => t ≤ now - 60)).length) := by omega
  unfold RateLimiter.check_rate_limit
  cases hl : dlookup rl.last_request (op, client) with
  | some last =>
    by_cases hi : now - last < (rl.limits op).min_interval_seconds
    · simp [hl, hi]
    · simp [hl, hi, hlt]
  | none => simp [hl, hlt]

/-- Claim C9: every request-history ring is bounded by its
`deque(maxlen=100)` capacity throughout any sequence of checks, so for
any operation class whose per-minute ceiling exceeds 100 the sliding
window constraint can never deny a request; with the default settings
the telemetry-read class has a ceiling of 600 > 100, so only the
minimum-interval constraint is effective for it. -/
theorem claim_C9 :
    (∀ (seq : List (ℚ × OperationType × String)),
      HistBound ((RateLimiter.init defaultLimits).applyChecks seq)) ∧
    (∀ (rl : RateLimiter) (now : ℚ) (op : OperationType) (client : String),
      HistBound rl → 100 < (rl.limits op).max_per_minute →
      ∀ w, (rl.check_rate_limit now op client).1 ≠ RLResult.deniedWindow w) ∧
    (defaultLimits OperationType.READ_DATA).max_per_minute = 600 ∧
    READ_DATA_PER_MINUTE = 600 ∧ 100 < READ_DATA_PER_MINUTE :=
  ⟨fun seq => applyChecks_histBound _ seq (init_histBound _),
    check_rate_limit_no_window, rfl, rfl, by norm_num [READ_DATA_PER_MINUTE,
      MAX_REQUESTS_PER_MINUTE]⟩

/-- Claim C9, witness: a fresh default-configured limiter checking the
telemetry-read class is not window-denied. -/
theorem claim_C9_witness :
    ((RateLimiter.init defaultLimits).check_rate_limit 0
        OperationType.READ_DATA "client").1 ≠ RLResult.deniedWindow 60 :=
  claim_C9.2.1 (RateLimiter.init defaultLimits) 0 OperationType.READ_DATA
    "client" (claim_C9.1 []) (by norm_num [defaultLimits, RateLimiter.init,
      MAX_REQUESTS_PER_MINUTE]) 60

/-- A lookup succeeds exactly when the key occurs in the key list. -/
theorem dlookup_isSome_iff {κ β : Type} [DecidableEq κ] :
    ∀ (l : List (κ × β)) (k : κ),
      (dlookup l k).isSome = true ↔ k ∈ dkeys l := by
  intro l k
  induction l with
  | nil => simp [dlookup, dkeys]
  | cons p t ih =>
    obtain ⟨a, b⟩ := p
    by_cases h : a = k
    · simp [dlookup, dkeys, h]
    · simp [dlookup, dkeys, h, Ne.symm h, ih]

/-- The key list after a store: unchanged for an existing key, extended
by the new key otherwise. -/
theorem dkeys_dinsert {κ β : Type} [DecidableEq κ] :
    ∀ (l : List (κ × β)) (k : κ) (v : β),
      dkeys (dinsert l k v) =
        if k ∈ dkeys l then dkeys l else dkeys l ++ [k] := by
  intro l k v
  induction l with
  | nil => simp [dinsert, dkeys]
  | cons p t ih =>
    obtain ⟨a, b⟩ := p
    by_cases h : a = k
    · simp [dinsert, dkeys, h]
    · have hka : ¬ k = a := fun hh => h hh.symm
      simp only [dkeys] at ih ⊢
      by_cases hm : k ∈ List.map Prod.fst t
      · simp [dinsert, h, hka, hm, ih]
      · simp [dinsert, h, hka, hm, ih]

/-- The key list after a removal is the filtered key list. -/
theorem dkeys_dpop {κ β : Type} [DecidableEq κ] :
    ∀ (l : List (κ × β)) (k : κ),
      dkeys (dpop l k) = (dkeys l).filter (fun a => ¬ a = k) := by
  intro l k
  induction l with
  | nil => simp [dpop, dkeys]
  | cons p t ih =>
    obtain ⟨a, b⟩ := p
    by_cases h : a = k <;> simp [dpop, dkeys, h, ih] <;>
      simpa [dpop, dkeys] using ih

/-- `set` preserves the key-parallelism invariant. -/
theorem cacheInv_set {α : Type} (dc : DataCache α) (k : String) (v : α)
    (now : ℚ) (h : CacheInv dc) : CacheInv (dc.set k v now) := by
  unfold CacheInv at h ⊢
  simp only [DataCache.set, dkeys_dinsert, h]

/-- `invalidate` preserves the key-parallelism invariant. -/
theorem cacheInv_invalidate {α : Type} (dc : DataCache α) (k : String)
    (h : CacheInv dc) : CacheInv (dc.invalidate k) := by
  unfold CacheInv at h ⊢
  simp only [DataCache.invalidate, dkeys_dpop, h]

/-- `clear` preserves the key-parallelism invariant. -/
theorem cacheInv_clear {α : Type} (dc : DataCache α) :
    CacheInv (dc.clear) := rfl

/-- Evaluation of `get` when the key is absent from the value
dictionary. -/
theorem get_eq_of_none {α : Type} (dc : DataCache α) (k : String)
    (now : ℚ) (hc : dlookup dc.cache k = none) :
    dc.get k now = some (none, dc) := by
  unfold DataCache.get
  rw [hc]

/-- Evaluation of `get` when the key is present in both dictionaries. -/
theorem get_eq_of_some {α : Type} (dc : DataCache α) (k : String)
    (now : ℚ) (v : α) (ts : ℚ) (hc : dlookup dc.cache k = some v)
    (ht : dlookup dc.timestamps k = some ts) :
    dc.get k now =
      if now - ts > CACHE_TTL then some (none, dc.invalidate k)
      else some (some v, dc) := by
  unfold DataCache.get
  rw [hc, ht]

/-- Under the invariant a key present in the value dictionary is present
in the timestamp dictionary. -/
theorem timestamps_lookup_of_inv {α : Type} (dc : DataCache α)
    (k : String) (v : α) (h : CacheInv dc)
    (hc : dlookup dc.cache k = some v) :
    ∃ ts, dlookup dc.timestamps k = some ts := by
  have hk : k ∈ dkeys dc.cache := by
    rw [← dlookup_isSome_iff, hc]
    rfl
  rw [CacheInv] at h
  rw [h, ← dlookup_isSome_iff] at hk
  cases ht : dlookup dc.timestamps k with
  | none => rw [ht] at hk; exact Bool.noConfusion hk
  | some ts => exact ⟨ts, rfl⟩

/-- Under the invariant the unguarded timestamp read in `get` never
faults. -/
theorem get_isSome_of_inv {α : Type} (dc : DataCache α) (k : String)
    (now : ℚ) (h : CacheInv dc) : (dc.get k now).isSome = true := by
  cases hc : dlookup dc.cache k with
  | none => rw [get_eq_of_none dc k now hc]; rfl
  | some v =>
    obtain ⟨ts, ht⟩ := timestamps_lookup_of_inv dc k v h hc
    rw [get_eq_of_some dc k now v ts hc ht]
    split <;> rfl

/-- Any state produced by `get` still satisfies the invariant. -/
theorem get_state_inv {α : Type} (dc : DataCache α) (k : String) (now : ℚ)
    (h : CacheInv dc) :
    ∀ r dc2, dc.get k now = some (r, dc2) → CacheInv dc2 := by
  intro r dc2 hget
  cases hc : dlookup dc.cache k with
  | none =>
    rw [get_eq_of_none dc k now hc] at hget
    cases hget
    exact h
  | some v =>
    obtain ⟨ts, ht⟩ := timestamps_lookup_of_inv dc k v h hc
    rw [get_eq_of_some dc k now v ts hc ht] at hget
    split at hget <;> cases hget
    · exact cacheInv_invalidate dc k h
    · exact h

/-- Running any operation sequence from an invariant-satisfying state
never faults and preserves the invariant. -/
theorem run_inv {α : Type} :
    ∀ (ops : List (CacheOp α)) (dc : DataCache α), CacheInv dc →
      ∃ dc2, dc.run ops = some dc2 ∧ CacheInv dc2 := by
  intro ops
  induction ops with
  | nil => exact fun dc h => ⟨dc, rfl, h⟩
  | cons op rest ih =>
    intro dc h
    cases op with
    | get k now =>
      have hs := get_isSome_of_inv dc k now h
      cases hget : dc.get k now with
      | none => rw [hget] at hs; exact Bool.noConfusion hs
      | some p =>
        obtain ⟨r, dc2⟩ := p
        obtain ⟨dc3, hrun, hinv⟩ :=
          ih dc2 (get_state_inv dc k now h r dc2 hget)
        exact ⟨dc3, by simpa [DataCache.run, hget] using hrun, hinv⟩
    | set k v now =>
      obtain ⟨dc3, hrun, hinv⟩ := ih _ (cacheInv_set dc k v now h)
      exact ⟨dc3, by simpa [DataCache.run] using hrun, hinv⟩
    | invalidate k =>
      obtain ⟨dc3, hrun, hinv⟩ := ih _ (cacheInv_invalidate dc k h)
      exact ⟨dc3, by simpa [DataCache.run] using hrun, hinv⟩
    | clear =>
      obtain ⟨dc3, hrun, hinv⟩ := ih _ (cacheInv_clear dc)
      exact ⟨dc3, by simpa [DataCache.run] using hrun, hinv⟩

/-- Claim C10: starting from a fresh cache, every operation sequence
keeps the value dictionary and the timestamp dictionary on exactly the
same keys and never faults on `get`'s unguarded timestamp read; under
the invariant, `get` returns the stored value exactly when the key is
present and its age is at most the configured TTL, removes the entry
(and misses) when the entry has expired, and misses without touching
the state when the key is absent. -/
theorem claim_C10 :
    (∀ (α : Type) (ops : List (CacheOp α)), ∃ dc,
      (DataCache.empty α).run ops = some dc ∧ CacheInv dc) ∧
    (∀ (α : Type) (dc : DataCache α) (k : String) (now : ℚ), CacheInv dc →
      (dc.get k now).isSome = true ∧
      (dlookup dc.cache k = none → dc.get k now = some (none, dc)) ∧
      (∀ (v : α) (ts : ℚ), dlookup dc.cache k = some v →
        dlookup dc.timestamps k = some ts →
        (now - ts ≤ CACHE_TTL → dc.get k now = some (some v, dc)) ∧
        (CACHE_TTL < now - ts →
          dc.get k now = some (none, dc.invalidate k)))) := by
  constructor
  · exact fun α ops => run_inv ops (DataCache.empty α) rfl
  · intro α dc k now h
    refine ⟨get_isSome_of_inv dc k now h, ?_, ?_⟩
    · intro hc
      exact get_eq_of_none dc k now hc
    · intro v ts hc ht
      constructor
      · intro hle
        rw [get_eq_of_some dc k now v ts hc ht, if_neg (not_lt.mpr hle)]
      · intro hgt
        rw [get_eq_of_some dc k now v ts hc ht, if_pos hgt]

/-- Claim C10, witness: one concrete set-then-get run with a fresh
entry, an expired read, and a faultless operation sequence. -/
theorem claim_C10_witness :
    (((DataCache.empty ℕ).set "k" 7 0).get "k" 1 =
      some (some 7, (DataCache.empty ℕ).set "k" 7 0)) ∧
    (((DataCache.empty ℕ).set "k" 7 0).get "k" 10 =
      some (none, ((DataCache.empty ℕ).set "k" 7 0).invalidate "k")) ∧
    ((DataCache.empty ℕ).run
        [CacheOp.set "k" 7 0, CacheOp.get "k" 1]).isSome = true := by
  have h1 := (claim_C10.2 ℕ ((DataCache.empty ℕ).set "k" 7 0) "k" 1
    rfl).2.2 7 0 rfl rfl
  have h2 := (claim_C10.2 ℕ ((DataCache.empty ℕ).set "k" 7 0) "k" 10
    rfl).2.2 7 0 rfl rfl
  refine ⟨h1.1 (by norm_num [CACHE_TTL]), h2.2 (by norm_num [CACHE_TTL]), ?_⟩
  obtain ⟨dc, hdc, _⟩ :=
    claim_C10.1 ℕ [CacheOp.set "k" 7 0, CacheOp.get "k" 1]
  rw [hdc]
  rfl

end ESP32Spec
